import Mathlib

set_option maxHeartbeats 1000000

/-!
Shallow embedding of the Email-Memory batch dedup-insert service.

The repository contains two Express handlers for `POST /get-unique-emails`:
a multi-campaign variant (campaign.js, here `handleC`) that routes each
request to a per-campaign MongoDB database, and a single-database variant
(server2.js, here `handleS`).  Request objects, contact payloads and stored
documents are modelled as association lists of string fields (JS objects);
the document store of a campaign is a list of such objects with a unique
index on the `email` field.  Each handler is a pure function from the
process state and the request to the new state together with a trace of
events (connection creation, store query, store insert, email send,
HTTP response), so that ordering and side-effect claims can be stated
about the trace.
-/

namespace EmailMemory

/-- A JavaScript-style object with string-valued fields, modelled as an
association list in which a later binding shadows an earlier one, matching
object spread and JSON parsing. -/
abbrev JObj := List (String × String)

/-- Field access on a JS object: the last binding for the key wins; `none`
models the JS value `undefined`. -/
def jget (o : JObj) (k : String) : Option String :=
  (o.reverse.find? (fun p => p.1 == k)).map (fun p => p.2)

/-- The object spread in both handlers: `\x7b ...c, user_id, conversation_id \x7d`.
The two header fields are bound after the payload fields of `c`, so they
shadow any payload-supplied values. -/
def spreadAug (c : JObj) (uid cid : String) : JObj :=
  c ++ [("user_id", uid), ("conversation_id", cid)]

/-- JavaScript truthiness of a possibly-absent string (an HTTP header or a
registry value): `undefined` and the empty string are falsy. -/
def truthy : Option String → Bool
  | none => false
  | some s => !s.isEmpty

/-- The CAMPAIGNS table of campaign.js: campaign key to logical database name. -/
def CAMPAIGNS : List (String × String) :=
  [("campaign1", "campaign1_db"), ("campaign2", "campaign2_db"),
   ("campaign3", "campaign3_db"), ("campaign4", "campaign4_db"),
   ("campaign5", "campaign5_db")]

/-- Registry lookup `CAMPAIGNS[k]`. -/
def campaignLookup (k : String) : Option String :=
  (CAMPAIGNS.find? (fun p => p.1 == k)).map (fun p => p.2)

/-- A mongoose connection handle; `cid` is a creation counter so that two
distinct `createConnection` calls yield distinguishable handles. -/
structure Conn where
  cid : Nat
  uri : String
deriving DecidableEq

/-- The process-wide `connections` cache of campaign.js plus the creation
counter. -/
structure ConnState where
  conns : List (String × Conn)
  next : Nat
deriving DecidableEq

/-- Cache lookup `connections[k]`. -/
def lookupConn (s : ConnState) (k : String) : Option Conn :=
  (s.conns.find? (fun p => p.1 == k)).map (fun p => p.2)

/-- The connection string built by getCampaignConnection. -/
def connUri (base db : String) : String :=
  base ++ "/" ++ db ++ "?retryWrites=true&w=majority"

/-- An outbound email message as passed to sgMail.send. -/
structure Msg where
  recipient : String
  sender : String
  subject : String
  text : String
  html : String
deriving DecidableEq

/-- JSON response bodies produced by the handlers. -/
inductive Body where
  | errObj (error : String)
  | okObj (message : String) (campaign : Option String) (inserted : Option Nat)
  | emptyArr
deriving DecidableEq

/-- Observable events of one request: connection creation, the store query
with its candidate list, the batch insert with the documents that were
actually written, each email send with its outcome, and the HTTP response. -/
inductive Ev where
  | connCreate (campaign : String) (uri : String)
  | find (query : List (Option String))
  | insert (docs : List JObj)
  | send (m : Msg) (success : Bool)
  | respond (status : Nat) (body : Body)
deriving DecidableEq

/-- getCampaignConnection of campaign.js: reject unregistered campaign keys,
return the cached handle when present, otherwise create a connection to
`base/dbName?retryWrites=true&w=majority` and cache it under the campaign key. -/
def getCampaignConnection (base : String) (s : ConnState) (k : String) :
    Except String (Conn × ConnState × List Ev) :=
  if !truthy (campaignLookup k) then
    Except.error ("Invalid campaign: " ++ k)
  else
    match lookupConn s k with
    | some c => Except.ok (c, s, [])
    | none =>
      let db := (campaignLookup k).getD ""
      let c : Conn := ⟨s.next, connUri base db⟩
      Except.ok (c, { conns := (k, c) :: s.conns, next := s.next + 1 },
        [Ev.connCreate k (connUri base db)])

/-- The process state of the multi-campaign variant: the connection cache,
the model cache (represented by its set of keys), and the per-campaign
contacts collections. -/
structure St where
  conn : ConnState
  models : List String
  stores : List (String × List JObj)
deriving DecidableEq

/-- The contacts collection of a campaign (empty when never written). -/
def storeOf (st : St) (k : String) : List JObj :=
  ((st.stores.find? (fun p => p.1 == k)).map (fun p => p.2)).getD []

/-- Replace the contacts collection of a campaign. -/
def setStore (st : St) (k : String) (v : List JObj) : St :=
  { st with stores := (k, v) :: st.stores }

/-- getContactModel of campaign.js: return the cached model if present,
otherwise obtain the campaign connection and cache the model key. -/
def getContactModelSt (base : String) (st : St) (k : String) :
    Except String (St × List Ev) :=
  if st.models.contains k then Except.ok (st, [])
  else
    match getCampaignConnection base st.conn k with
    | Except.error e => Except.error e
    | Except.ok (_, cs, evs) =>
      Except.ok ({ st with conn := cs, models := k :: st.models }, evs)

/-- An inbound request: the three headers (absent modelled as `none`), the
`contacts` body field (`none` models absent or non-array), and the email
subject and text. -/
structure Req where
  campaign : Option String
  user_id : Option String
  conversation_id : Option String
  contacts : Option (List JObj)
  subject : String
  text : String
deriving DecidableEq

/-- Kinds of error thrown by the embedded insertMany. -/
inductive ErrKind where
  | dup
  | other
deriving DecidableEq

/-- The email fields of the documents currently in a store (the values the
unique index on `email` ranges over). -/
def storeEmails (store : List JObj) : List (Option String) :=
  store.map (fun d => jget d "email")

/-- One pass of an unordered insertMany against a unique index on `email`:
documents are attempted in order; a document whose email already occurs in
the store (including documents inserted earlier in the same batch) is
skipped and flagged as a duplicate failure, without aborting the rest. -/
def insertLoop (store : List JObj) : List JObj → List JObj × List JObj × Bool
  | [] => (store, [], false)
  | d :: ds =>
    if (storeEmails store).contains (jget d "email") then
      ((insertLoop store ds).1, (insertLoop store ds).2.1, true)
    else
      ((insertLoop (store ++ [d]) ds).1, d :: (insertLoop (store ++ [d]) ds).2.1,
        (insertLoop (store ++ [d]) ds).2.2)

/-- Result of the embedded insertMany: the store after the call, the
documents that were written, and the error the call throws, if any. -/
structure InsertRes where
  store : List JObj
  inserted : List JObj
  err : Option ErrKind
deriving DecidableEq

/-- `Contact.insertMany(newContacts, \x7b ordered: false \x7d)`: with an
unordered insert, mongoose validation (throwOnValidationError at its default
false) silently skips documents that fail validation — here, documents
missing the required `email` — and resolves; the remaining documents are
attempted in order against the unique index, index duplicates are skipped,
and the call rejects with a duplicate-key error (code 11000) exactly when
some document hit the index. -/
def insertManyU (store : List JObj) (docs : List JObj) : InsertRes :=
  let valid := docs.filter (fun d => (jget d "email").isSome)
  let r := insertLoop store valid
  { store := r.1, inserted := r.2.1,
    err := if r.2.2 then some ErrKind.dup else none }

/-- `contacts.map(c => c.email)`: the candidate emails, in input order. -/
def incomingEmailsOf (cs : List JObj) : List (Option String) :=
  cs.map (fun c => jget c "email")

/-- `Contact.find(\x7b email: \x7b in: incomingEmails \x7d \x7d)`: the stored
documents whose email is among the candidates. -/
def existingDocsOf (store cs : List JObj) : List JObj :=
  store.filter (fun d => (incomingEmailsOf cs).contains (jget d "email"))

/-- `existingDocs.map(doc => doc.email)`: the emails of the returned records. -/
def existingEmailsOf (store cs : List JObj) : List (Option String) :=
  (existingDocsOf store cs).map (fun d => jget d "email")

/-- The `newContacts` computation of both handlers: keep the input contacts
whose email is not among the emails of the returned existing records, in
input order, and augment each with the two header values. -/
def newContactsOf (store cs : List JObj) (uid cid : String) : List JObj :=
  (cs.filter (fun c => !(existingEmailsOf store cs).contains (jget c "email"))).map
    (fun c => spreadAug c uid cid)

/-- Keep a single field of a document if present. -/
def pick (d : JObj) (k : String) : JObj :=
  match jget d k with
  | some v => [(k, v)]
  | none => []

/-- The response-data projection `(\x7b name, email, company \x7d) => ...`. -/
def projNEC (d : JObj) : JObj :=
  pick d "name" ++ pick d "email" ++ pick d "company"

/-- `email.email.toLowerCase()`: the recipient address of one send. -/
def lowerEmail (e : JObj) : String :=
  ((jget e "email").getD "").toLower

/-- One sgMail.send of campaign.js, parameterised by the outcome (`ok`) of
the provider for each recipient address; the outcome is only logged. -/
def sendEvC (ok : String → Bool) (subject text : String) (e : JObj) : Ev :=
  Ev.send
    { recipient := lowerEmail e,
      sender := "Osteopathic Health Centre <wellness@osteopathydubai.com>",
      subject := subject, text := text, html := text }
    (ok (lowerEmail e))

/-- One sgMail.send of server2.js. -/
def sendEvS (ok : String → Bool) (subject text : String) (e : JObj) : Ev :=
  Ev.send
    { recipient := lowerEmail e, sender := "on-demand <info@on-demand.io>",
      subject := subject, text := text, html := text }
    (ok (lowerEmail e))

/-- The post-validation pipeline of campaign.js: query the store for the
candidate emails, compute the new contacts, answer directly when all emails
already exist, otherwise run the unordered insert, the notification fan-out,
and the response; the catch block maps a duplicate-key error to `201 []` and
any other thrown error to a generic 500. -/
def postDedup (ok : String → Bool) (st1 : St) (connEvs : List Ev)
    (campaign : String) (cs : List JObj) (uid cid subject text : String) :
    St × List Ev :=
  let store := storeOf st1 campaign
  let incoming := incomingEmailsOf cs
  let newContacts := newContactsOf store cs uid cid
  if newContacts.isEmpty then
    (st1, connEvs ++ [Ev.find incoming,
      Ev.respond 200 (Body.okObj "These emails already exist in this campaign."
        (some campaign) none)])
  else
    let ir := insertManyU store newContacts
    let st2 := setStore st1 campaign ir.store
    match ir.err with
    | some ErrKind.dup =>
      (st2, connEvs ++ [Ev.find incoming, Ev.insert ir.inserted,
        Ev.respond 201 Body.emptyArr])
    | some ErrKind.other =>
      (st2, connEvs ++ [Ev.find incoming, Ev.insert ir.inserted,
        Ev.respond 500 (Body.errObj "Internal server error")])
    | none =>
      let responseData := ir.inserted.map projNEC
      let sendEvs := responseData.map (sendEvC ok subject text)
      (st2, connEvs ++ [Ev.find incoming, Ev.insert ir.inserted] ++ sendEvs ++
        [Ev.respond 200 (Body.okObj
          ("Successfully processed for campaign: " ++ campaign)
          (some campaign) (some responseData.length))])

/-- The insert-onward continuation of the campaign.js pipeline with the
insert result taken as a value: whatever `insertMany` produced — including a
rejection injected by the driver or the network, which the pure embedding of
the insert itself never generates — flows into the embedded top-level catch,
which maps a duplicate-key error (code 11000) to `201 []`, any other error
to the generic 500 body, and a successful result to the notification
fan-out followed by the success response.  This is the else-branch of
`postDedup` with `insertManyU` abstracted. -/
def afterInsert (ok : String → Bool) (st1 : St) (connEvs : List Ev)
    (campaign : String) (incoming : List (Option String)) (ir : InsertRes)
    (subject text : String) : St × List Ev :=
  let st2 := setStore st1 campaign ir.store
  match ir.err with
  | some ErrKind.dup =>
    (st2, connEvs ++ [Ev.find incoming, Ev.insert ir.inserted,
      Ev.respond 201 Body.emptyArr])
  | some ErrKind.other =>
    (st2, connEvs ++ [Ev.find incoming, Ev.insert ir.inserted,
      Ev.respond 500 (Body.errObj "Internal server error")])
  | none =>
    let responseData := ir.inserted.map projNEC
    let sendEvs := responseData.map (sendEvC ok subject text)
    (st2, connEvs ++ [Ev.find incoming, Ev.insert ir.inserted] ++ sendEvs ++
      [Ev.respond 200 (Body.okObj
        ("Successfully processed for campaign: " ++ campaign)
        (some campaign) (some responseData.length))])

/-- The multi-campaign handler of campaign.js for `POST /get-unique-emails`:
validation in source order, then model resolution, then the dedup-insert
pipeline. -/
def handleC (base : String) (ok : String → Bool) (st : St) (r : Req) :
    St × List Ev :=
  if !truthy r.campaign then
    (st, [Ev.respond 400 (Body.errObj "Missing campaign header")])
  else if !truthy r.user_id || !truthy r.conversation_id then
    (st, [Ev.respond 400 (Body.errObj "Missing user_id or conversation_id in headers")])
  else if !truthy (campaignLookup (r.campaign.getD "")) then
    (st, [Ev.respond 400 (Body.errObj "Invalid campaign! Please enter the correct campaign.")])
  else
    match r.contacts with
    | none => (st, [Ev.respond 400 (Body.errObj "Request must include an array of contacts")])
    | some cs =>
      if cs.isEmpty then
        (st, [Ev.respond 400 (Body.errObj "Request must include an array of contacts")])
      else
        let campaign := r.campaign.getD ""
        let uid := r.user_id.getD ""
        let cid := r.conversation_id.getD ""
        match getContactModelSt base st campaign with
        | Except.error _ => (st, [Ev.respond 500 (Body.errObj "Internal server error")])
        | Except.ok (st1, connEvs) =>
          postDedup ok st1 connEvs campaign cs uid cid r.subject r.text

/-- The post-validation pipeline of server2.js: same dedup-insert pipeline
without the campaign routing; on the successful-insert path the source sends
the emails and then falls off the end of the handler without ever producing
an HTTP response, which the trace records by ending after the send events
with no respond event. -/
def postDedupS (ok : String → Bool) (store : List JObj) (cs : List JObj)
    (uid cid subject text : String) : List JObj × List Ev :=
  let incoming := incomingEmailsOf cs
  let newContacts := newContactsOf store cs uid cid
  if newContacts.isEmpty then
    (store, [Ev.find incoming,
      Ev.respond 200 (Body.okObj "These emails already exist." none none)])
  else
    let ir := insertManyU store newContacts
    match ir.err with
    | some ErrKind.dup =>
      (ir.store, [Ev.find incoming, Ev.insert ir.inserted,
        Ev.respond 201 Body.emptyArr])
    | some ErrKind.other =>
      (ir.store, [Ev.find incoming, Ev.insert ir.inserted,
        Ev.respond 500 (Body.errObj "Internal server error")])
    | none =>
      let responseData := ir.inserted.map projNEC
      let sendEvs := responseData.map (sendEvS ok subject text)
      (ir.store, [Ev.find incoming, Ev.insert ir.inserted] ++ sendEvs)

/-- The single-database handler of server2.js for `POST /get-unique-emails`:
the two validations of the single-store variant in source order, then the
dedup-insert pipeline. -/
def handleS (ok : String → Bool) (store : List JObj) (r : Req) :
    List JObj × List Ev :=
  if !truthy r.user_id || !truthy r.conversation_id then
    (store, [Ev.respond 400 (Body.errObj "Missing user_id or conversation_id in headers")])
  else
    match r.contacts with
    | none => (store, [Ev.respond 400 (Body.errObj "Request must include an array of contacts")])
    | some cs =>
      if cs.isEmpty then
        (store, [Ev.respond 400 (Body.errObj "Request must include an array of contacts")])
      else
        postDedupS ok store cs (r.user_id.getD "") (r.conversation_id.getD "")
          r.subject r.text

/-- Validation order exactly as the specification lists it for the
multi-campaign variant: missing campaign header, then missing identity
headers, then campaign not found in the registry, then contacts not a
non-empty array; `none` means the request passes validation. -/
def specFirstError (r : Req) : Option String :=
  if !truthy r.campaign then some "Missing campaign header"
  else if !truthy r.user_id || !truthy r.conversation_id then
    some "Missing user_id or conversation_id in headers"
  else if (campaignLookup (r.campaign.getD "")).isNone then
    some "Invalid campaign! Please enter the correct campaign."
  else
    match r.contacts with
    | none => some "Request must include an array of contacts"
    | some cs =>
      if cs.isEmpty then some "Request must include an array of contacts" else none

/-! ### Counting and erasing send events -/

/-- Whether a trace event is an email send attempt. -/
def isSend : Ev → Bool
  | Ev.send _ _ => true
  | _ => false

/-- The number of email send attempts in a trace. -/
def sendCount (evs : List Ev) : Nat := (evs.filter isSend).length

/-- Forget the provider outcome of a send event, keeping everything else:
two traces equal after erasure differ at most in which sends failed. -/
def eraseSendOutcome : Ev → Ev
  | Ev.send m _ => Ev.send m true
  | e => e

/-! ### Sample states and requests used by the concrete witnesses -/

def st0 : St := { conn := { conns := [], next := 0 }, models := [], stores := [] }

def okAll : String → Bool := fun _ => true

def okNone : String → Bool := fun _ => false

def reqNoCampaign : Req :=
  { campaign := none, user_id := some "u1", conversation_id := some "c1",
    contacts := some [[("email", "a@x.com")]], subject := "hi", text := "body" }

def contactEvil : JObj :=
  [("user_id", "payloadU"), ("conversation_id", "payloadC"), ("email", "a@x.com")]

def contactA : JObj := [("email", "a@x.com")]

def reqOne : Req :=
  { campaign := some "campaign1", user_id := some "u1", conversation_id := some "c1",
    contacts := some [contactA], subject := "s", text := "t" }

def docA : JObj := [("email", "a@x.com"), ("user_id", "u0"), ("conversation_id", "c0")]

def stWithA : St :=
  { conn := { conns := [], next := 0 }, models := [], stores := [("campaign1", [docA])] }

def docB : JObj := [("email", "b@x.com")]

def contactNoEmail : JObj := [("name", "nameless")]

def reqDup : Req :=
  { campaign := some "campaign1", user_id := some "u1", conversation_id := some "c1",
    contacts := some [contactA, contactA], subject := "s", text := "t" }

def reqBad : Req :=
  { campaign := some "campaign1", user_id := some "u1", conversation_id := some "c1",
    contacts := some [contactNoEmail], subject := "s", text := "t" }

def contactB : JObj := [("email", "B@x.com"), ("name", "bee")]

def reqTwo : Req :=
  { campaign := some "campaign1", user_id := some "u1", conversation_id := some "c1",
    contacts := some [contactA, contactB], subject := "s", text := "t" }

/-- The number of distinct input contact emails (deduplicated input size). -/
def dedupCount (cs : List JObj) : Nat :=
  ((cs.map (fun c => jget c "email")).dedup).length

/-- An insert result carrying an unclassified error, as a driver or network
failure would produce: nothing written, promise rejected without code 11000. -/
def drvFail : InsertRes := { store := [docA], inserted := [], err := some ErrKind.other }

/-- Claim C4 as literally stated: for every valid request in which no input
contact email already exists in the campaign store, the response carries an
inserted count equal to the number of deduplicated input contacts, and the
number of dispatched notifications equals the number of records the insert
wrote. -/
def c4Claim : Prop :=
  ∀ (base : String) (ok : String → Bool) (st : St) (r : Req) (k : String)
    (cs : List JObj),
    r.campaign = some k → r.contacts = some cs → specFirstError r = none →
    (∀ c ∈ cs,
      ¬ (storeOf st k).any (fun d => jget d "email" == jget c "email") = true) →
    (∃ m, Ev.respond 200 (Body.okObj m (some k) (some (dedupCount cs))) ∈
      (handleC base ok st r).2) ∧
    sendCount (handleC base ok st r).2 =
      (insertManyU (storeOf st k) (newContactsOf (storeOf st k) cs
        (r.user_id.getD "") (r.conversation_id.getD ""))).inserted.length


/-! ### Basic lemmas about the embedded JS objects and the registry -/

theorem contains_iff {α : Type} [BEq α] [LawfulBEq α] (l : List α) (a : α) :
    l.contains a = true ↔ a ∈ l :=
  List.elem_iff

theorem jget_append (o : JObj) (k v k2 : String) :
    jget (o ++ [(k, v)]) k2 = if k == k2 then some v else jget o k2 := by
  simp only [jget, List.reverse_append]
  cases h : (k == k2) with
  | false => simp [List.find?, h]
  | true => simp [List.find?, h]

theorem spreadAug_decomp (c : JObj) (uid cid : String) :
    spreadAug c uid cid = (c ++ [("user_id", uid)]) ++ [("conversation_id", cid)] := by
  simp [spreadAug]

theorem jget_spreadAug_uid (c : JObj) (uid cid : String) :
    jget (spreadAug c uid cid) "user_id" = some uid := by
  rw [spreadAug_decomp, jget_append, jget_append]
  simp

theorem jget_spreadAug_cid (c : JObj) (uid cid : String) :
    jget (spreadAug c uid cid) "conversation_id" = some cid := by
  rw [spreadAug_decomp, jget_append]
  simp

theorem truthy_campaignLookup (k : String) :
    truthy (campaignLookup k) = (campaignLookup k).isSome := by
  cases h : campaignLookup k with
  | none => rfl
  | some db =>
    rcases Option.map_eq_some'.mp h with ⟨p, hfind, hdb⟩
    have hp : p ∈ CAMPAIGNS := List.mem_of_find?_eq_some hfind
    subst hdb
    fin_cases hp <;> rfl

/-! ### Lemmas about the unordered batch insert -/

theorem insertLoop_store_eq (docs : List JObj) :
    ∀ store, (insertLoop store docs).1 = store ++ (insertLoop store docs).2.1 := by
  induction docs with
  | nil => intro store; simp [insertLoop]
  | cons d ds ih =>
    intro store
    simp only [insertLoop]
    by_cases h : (storeEmails store).contains (jget d "email") = true
    · rw [if_pos h]
      simpa using ih store
    · rw [if_neg h]
      show (insertLoop (store ++ [d]) ds).1 = store ++ d :: (insertLoop (store ++ [d]) ds).2.1
      rw [ih (store ++ [d])]
      simp

theorem insertLoop_subset (docs : List JObj) :
    ∀ store d, d ∈ (insertLoop store docs).2.1 → d ∈ docs := by
  induction docs with
  | nil => intro store d h; simp [insertLoop] at h
  | cons x ds ih =>
    intro store d h
    simp only [insertLoop] at h
    by_cases hx : (storeEmails store).contains (jget x "email") = true
    · rw [if_pos hx] at h
      exact List.mem_cons_of_mem x (ih store d h)
    · rw [if_neg hx] at h
      rcases List.mem_cons.mp h with h | h
      · exact h ▸ List.mem_cons_self x ds
      · exact List.mem_cons_of_mem x (ih (store ++ [x]) d h)

theorem insertManyU_subset (store docs : List JObj) (d : JObj)
    (h : d ∈ (insertManyU store docs).inserted) : d ∈ docs := by
  unfold insertManyU at h
  exact List.mem_of_mem_filter
    (insertLoop_subset (docs.filter (fun x => (jget x "email").isSome)) store d h)

theorem jget_spreadAug_email (c : JObj) (uid cid : String) :
    jget (spreadAug c uid cid) "email" = jget c "email" := by
  rw [spreadAug_decomp, jget_append, jget_append]
  simp

theorem jget_projNEC_email (d : JObj) :
    jget (projNEC d) "email" = jget d "email" := by
  unfold projNEC pick
  cases h1 : jget d "name" <;> cases h2 : jget d "email" <;>
    cases h3 : jget d "company" <;> simp [jget, h2]

theorem lowerEmail_projNEC (d : JObj) :
    lowerEmail (projNEC d) = ((jget d "email").getD "").toLower := by
  unfold lowerEmail
  rw [jget_projNEC_email]

theorem sendCount_append (a b : List Ev) :
    sendCount (a ++ b) = sendCount a + sendCount b := by
  simp [sendCount, List.filter_append]

theorem sendCount_sendEvC (ok : String → Bool) (subject text : String)
    (ds : List JObj) : sendCount (ds.map (sendEvC ok subject text)) = ds.length := by
  induction ds with
  | nil => rfl
  | cons d ds ih => simp [sendCount, sendEvC, isSend, List.filter] at ih ⊢; exact ih

/-! ### Freshness lemmas for the unordered insert -/

theorem insertLoop_all_fresh (docs : List JObj) :
    ∀ store, (∀ x ∈ docs, ¬ (storeEmails store).contains (jget x "email") = true) →
      (docs.map (fun x => jget x "email")).Nodup →
      insertLoop store docs = (store ++ docs, docs, false) := by
  induction docs with
  | nil => intro store _ _; simp [insertLoop]
  | cons d ds ih =>
    intro store hfresh hnodup
    rw [List.map_cons, List.nodup_cons] at hnodup
    obtain ⟨hhead, hnd⟩ := hnodup
    simp only [insertLoop]
    rw [if_neg (hfresh d (List.mem_cons_self d ds))]
    have hds : ∀ x ∈ ds, ¬ (storeEmails (store ++ [d])).contains (jget x "email") = true := by
      intro x hx hcon
      have hmem := (contains_iff _ _).mp hcon
      simp only [storeEmails, List.map_append, List.map_cons, List.map_nil] at hmem
      rcases List.mem_append.mp hmem with hmem | hmem
      · exact hfresh x (List.mem_cons_of_mem d hx)
          ((contains_iff _ _).mpr (by simpa [storeEmails] using hmem))
      · have hxd : jget x "email" = jget d "email" := by simpa using hmem
        exact hhead (hxd ▸ List.mem_map_of_mem (fun y => jget y "email") hx)
    rw [ih (store ++ [d]) hds hnd]
    simp

theorem insertLoop_first_fresh (pre : List JObj) :
    ∀ store d post,
      ¬ (storeEmails store).contains (jget d "email") = true →
      (∀ x ∈ pre, jget x "email" ≠ jget d "email") →
      d ∈ (insertLoop store (pre ++ d :: post)).2.1 := by
  induction pre with
  | nil =>
    intro store d post hfresh _
    simp only [List.nil_append, insertLoop]
    rw [if_neg hfresh]
    exact List.mem_cons_self _ _
  | cons p pre ih =>
    intro store d post hfresh hpre
    simp only [List.cons_append, insertLoop]
    by_cases hp : (storeEmails store).contains (jget p "email") = true
    · rw [if_pos hp]
      exact ih store d post hfresh (fun x hx => hpre x (List.mem_cons_of_mem p hx))
    · rw [if_neg hp]
      have hfresh2 : ¬ (storeEmails (store ++ [p])).contains (jget d "email") = true := by
        intro hcon
        have hmem := (contains_iff _ _).mp hcon
        simp only [storeEmails, List.map_append, List.map_cons, List.map_nil] at hmem
        rcases List.mem_append.mp hmem with hmem | hmem
        · exact hfresh ((contains_iff _ _).mpr (by simpa [storeEmails] using hmem))
        · have : jget d "email" = jget p "email" := by simpa using hmem
          exact hpre p (List.mem_cons_self p pre) this.symm
      exact List.mem_cons_of_mem p
        (ih (store ++ [p]) d post hfresh2 (fun x hx => hpre x (List.mem_cons_of_mem p hx)))

/-! ### The query round trip: membership in the existing-email set -/

theorem existingEmails_contains_eq (store cs : List JObj) (c : JObj) (hc : c ∈ cs) :
    (existingEmailsOf store cs).contains (jget c "email")
      = store.any (fun d => jget d "email" == jget c "email") := by
  apply Bool.coe_iff_coe.mp
  simp only [existingEmailsOf, existingDocsOf, incomingEmailsOf, contains_iff,
    List.mem_map, List.mem_filter, List.any_eq_true, beq_iff_eq]
  constructor
  · rintro ⟨d, ⟨hd, _⟩, he⟩
    exact ⟨d, hd, he⟩
  · rintro ⟨d, hd, he⟩
    exact ⟨d, ⟨hd, ⟨c, hc, he.symm⟩⟩, he⟩

theorem newContactsOf_eq (store cs : List JObj) (uid cid : String) :
    newContactsOf store cs uid cid =
      (cs.filter (fun c => !store.any (fun d => jget d "email" == jget c "email"))).map
        (fun c => spreadAug c uid cid) := by
  unfold newContactsOf
  congr 1
  apply List.filter_congr
  intro c hc
  rw [existingEmails_contains_eq store cs c hc]

theorem newContactsOf_nil_of_all_exist (store cs : List JObj) (uid cid : String)
    (h : ∀ c ∈ cs, store.any (fun d => jget d "email" == jget c "email") = true) :
    newContactsOf store cs uid cid = [] := by
  rw [newContactsOf_eq]
  have hf : cs.filter (fun c => !store.any (fun d => jget d "email" == jget c "email")) = [] := by
    rw [List.filter_eq_nil_iff]
    intro c hc
    simp [h c hc]
  rw [hf]
  rfl

theorem newContactsOf_all_of_none_exist (store cs : List JObj) (uid cid : String)
    (h : ∀ c ∈ cs, ¬ store.any (fun d => jget d "email" == jget c "email") = true) :
    newContactsOf store cs uid cid = cs.map (fun c => spreadAug c uid cid) := by
  rw [newContactsOf_eq]
  have hf : cs.filter (fun c => !store.any (fun d => jget d "email" == jget c "email")) = cs := by
    apply List.filter_eq_self.mpr
    intro c hc
    simp [h c hc]
  rw [hf]

/-! ### Model resolution and the valid-request bridge -/

theorem storeOf_congr (st1 st : St) (k : String) (h : st1.stores = st.stores) :
    storeOf st1 k = storeOf st k := by
  unfold storeOf
  rw [h]

theorem getContactModelSt_ok (base : String) (st : St) (k db : String)
    (hdb : campaignLookup k = some db) :
    ∃ st1 evs, getContactModelSt base st k = Except.ok (st1, evs) ∧
      st1.stores = st.stores ∧
      (evs = [] ∨ evs = [Ev.connCreate k (connUri base db)]) := by
  have ht : truthy (campaignLookup k) = true := by
    rw [truthy_campaignLookup, hdb]; rfl
  unfold getContactModelSt
  by_cases hm : st.models.contains k = true
  · rw [if_pos hm]
    exact ⟨st, [], rfl, rfl, Or.inl rfl⟩
  · rw [if_neg hm]
    unfold getCampaignConnection
    rw [ht]
    simp only [Bool.not_true, Bool.false_eq_true, if_false]
    cases hl : lookupConn st.conn k with
    | some c => exact ⟨_, [], rfl, rfl, Or.inl rfl⟩
    | none =>
      refine ⟨_, _, rfl, rfl, Or.inr ?_⟩
      rw [hdb]
      rfl

theorem handleC_valid (base : String) (ok : String → Bool) (st : St) (r : Req)
    (k db : String) (cs : List JObj)
    (hk : r.campaign = some k) (hcs : r.contacts = some cs)
    (hdb : campaignLookup k = some db) (hval : specFirstError r = none) :
    ∃ st1 connEvs, getContactModelSt base st k = Except.ok (st1, connEvs) ∧
      st1.stores = st.stores ∧
      (connEvs = [] ∨ connEvs = [Ev.connCreate k (connUri base db)]) ∧
      handleC base ok st r =
        postDedup ok st1 connEvs k cs (r.user_id.getD "") (r.conversation_id.getD "")
          r.subject r.text := by
  have h1 : truthy r.campaign = true := by
    cases hb : truthy r.campaign with
    | true => rfl
    | false => simp [specFirstError, hb] at hval
  have h2 : (!truthy r.user_id || !truthy r.conversation_id) = false := by
    cases hb : (!truthy r.user_id || !truthy r.conversation_id) with
    | false => rfl
    | true => simp [specFirstError, h1, hb] at hval
  have h1' : truthy (some k) = true := hk ▸ h1
  have ht : truthy (campaignLookup k) = true := by
    rw [truthy_campaignLookup]
    simp [hdb]
  have hemp : cs.isEmpty = false := by
    cases hb : cs.isEmpty with
    | false => rfl
    | true => simp [specFirstError, hk, h1', h2, hdb, hcs, hb] at hval
  obtain ⟨st1, connEvs, hok, hst, hevs⟩ := getContactModelSt_ok base st k db hdb
  refine ⟨st1, connEvs, hok, hst, hevs, ?_⟩
  simp [handleC, hk, hcs, h1', h2, ht, hemp, hok]

/-! ### Claim C2: fail-fast validation with no side effects -/

/-- C2: in the multi-campaign variant, validation is fail-fast in the order
missing campaign header, missing identity headers, unregistered campaign,
then invalid contacts array; whenever any check fails (`specFirstError`
returns a message), the handler responds 400 with exactly that error and
produces no other event and no state change: no store read or write, no
email send, and no new entry in the connection cache or the model cache. -/
theorem c2_validation (base : String) (ok : String → Bool) (st : St) (r : Req)
    (e : String) (he : specFirstError r = some e) :
    handleC base ok st r = (st, [Ev.respond 400 (Body.errObj e)]) := by
  cases h1 : truthy r.campaign with
  | false =>
    simp [specFirstError, h1] at he
    simp [handleC, h1, ← he]
  | true =>
    cases h2 : (!truthy r.user_id || !truthy r.conversation_id) with
    | true =>
      simp [specFirstError, h1, h2] at he
      simp [handleC, h1, h2, ← he]
    | false =>
      cases h3 : (campaignLookup (r.campaign.getD "")).isNone with
      | true =>
        have ht : truthy (campaignLookup (r.campaign.getD "")) = false := by
          rw [truthy_campaignLookup]
          cases hc : campaignLookup (r.campaign.getD "") with
          | none => rfl
          | some db => rw [hc] at h3; simp at h3
        simp [specFirstError, h1, h2, h3] at he
        simp [handleC, h1, h2, ht, ← he]
      | false =>
        have ht : truthy (campaignLookup (r.campaign.getD "")) = true := by
          rw [truthy_campaignLookup]
          cases hc : campaignLookup (r.campaign.getD "") with
          | none => rw [hc] at h3; simp at h3
          | some db => rfl
        cases hcon : r.contacts with
        | none =>
          simp [specFirstError, h1, h2, h3, hcon] at he
          simp [handleC, h1, h2, ht, hcon, ← he]
        | some cs =>
          cases hemp : cs.isEmpty with
          | true =>
            simp [specFirstError, h1, h2, h3, hcon, hemp] at he
            simp [handleC, h1, h2, ht, hcon, hemp, ← he]
          | false =>
            simp [specFirstError, h1, h2, h3, hcon, hemp] at he

/-- Witness for C2 at a concrete request with no campaign header. -/
theorem c2_validation_witness :
    handleC "mongodb://h" okAll st0 reqNoCampaign =
      (st0, [Ev.respond 400 (Body.errObj "Missing campaign header")]) :=
  c2_validation "mongodb://h" okAll st0 reqNoCampaign "Missing campaign header" rfl

/-! ### Claim C9: per-campaign connection caching -/

/-- C9: getCampaignConnection is idempotent per campaign key: for a
registered campaign with no cached handle it creates exactly one connection,
whose location is the shared base location followed by the resolved database
name and the fixed query parameters, and caches it under the campaign key;
whenever a handle is cached for the key, the call returns that same handle
with the cache unchanged and no connection-creation event. -/
theorem c9_connection_cached (base k db : String) (hk : campaignLookup k = some db)
    (s : ConnState) :
    (lookupConn s k = none →
      getCampaignConnection base s k =
        Except.ok ((⟨s.next, connUri base db⟩ : Conn),
          { conns := (k, (⟨s.next, connUri base db⟩ : Conn)) :: s.conns, next := s.next + 1 },
          [Ev.connCreate k (connUri base db)]) ∧
      connUri base db = base ++ "/" ++ db ++ "?retryWrites=true&w=majority" ∧
      lookupConn (ConnState.mk ((k, (⟨s.next, connUri base db⟩ : Conn)) :: s.conns)
        (s.next + 1)) k = some (⟨s.next, connUri base db⟩ : Conn)) ∧
    (∀ c : Conn, lookupConn s k = some c →
      getCampaignConnection base s k = Except.ok (c, s, [])) := by
  have ht : truthy (campaignLookup k) = true := by
    rw [truthy_campaignLookup, hk]; rfl
  have ht2 : truthy (some db) = true := hk ▸ ht
  refine ⟨fun hnone => ⟨?_, rfl, ?_⟩, fun c hc => ?_⟩
  · simp [getCampaignConnection, ht, ht2, hnone, hk]
  · simp [lookupConn]
  · simp [getCampaignConnection, ht, hc]

/-- Witness for C9 at a concrete base location and campaign key: the first
call creates and caches the handle, the second call returns it unchanged. -/
theorem c9_connection_cached_witness :
    (getCampaignConnection "mongodb://h" { conns := [], next := 0 } "campaign2" =
      Except.ok ((⟨0, connUri "mongodb://h" "campaign2_db"⟩ : Conn),
        { conns := [("campaign2", (⟨0, connUri "mongodb://h" "campaign2_db"⟩ : Conn))],
          next := 1 },
        [Ev.connCreate "campaign2" (connUri "mongodb://h" "campaign2_db")])) ∧
    (getCampaignConnection "mongodb://h"
        { conns := [("campaign2", (⟨0, connUri "mongodb://h" "campaign2_db"⟩ : Conn))],
          next := 1 } "campaign2" =
      Except.ok ((⟨0, connUri "mongodb://h" "campaign2_db"⟩ : Conn),
        { conns := [("campaign2", (⟨0, connUri "mongodb://h" "campaign2_db"⟩ : Conn))],
          next := 1 }, [])) := by
  constructor
  · exact ((c9_connection_cached "mongodb://h" "campaign2" "campaign2_db" rfl
      { conns := [], next := 0 }).1 rfl).1
  · exact (c9_connection_cached "mongodb://h" "campaign2" "campaign2_db" rfl
      { conns := [("campaign2", (⟨0, connUri "mongodb://h" "campaign2_db"⟩ : Conn))],
        next := 1 }).2 _ rfl

/-! ### Claim C10: header identity overwrites payload identity -/

/-- C10: every document the pipeline inserts carries the request header
values in `user_id` and `conversation_id`, even when the input contact
itself supplies those fields, because the headers are spread after the
payload fields and a later binding shadows an earlier one. -/
theorem c10_headers_overwrite_payload (store cs : List JObj) (uid cid : String)
    (d : JObj)
    (hd : d ∈ (insertManyU store (newContactsOf store cs uid cid)).inserted) :
    jget d "user_id" = some uid ∧ jget d "conversation_id" = some cid := by
  have hmem := insertManyU_subset _ _ _ hd
  unfold newContactsOf at hmem
  rcases List.mem_map.mp hmem with ⟨c, _, rfl⟩
  exact ⟨jget_spreadAug_uid c uid cid, jget_spreadAug_cid c uid cid⟩

/-- Witness for C10: a contact that carries its own user and conversation
identifiers in the payload is nevertheless persisted with the header values. -/
theorem c10_headers_overwrite_payload_witness :
    jget (spreadAug contactEvil "headerU" "headerC") "user_id" = some "headerU" ∧
    jget (spreadAug contactEvil "headerU" "headerC") "conversation_id" = some "headerC" :=
  c10_headers_overwrite_payload [] [contactEvil] "headerU" "headerC"
    (spreadAug contactEvil "headerU" "headerC") (by decide)

/-! ### Additional bridging lemmas for the processing-path claims -/

theorem spec_none_contacts (r : Req) (cs : List JObj) (hcs : r.contacts = some cs)
    (hval : specFirstError r = none) : cs.isEmpty = false := by
  by_contra hb
  have hb' : cs.isEmpty = true := by revert hb; cases cs.isEmpty <;> simp
  unfold specFirstError at hval
  split at hval
  · exact Option.noConfusion hval
  · split at hval
    · exact Option.noConfusion hval
    · split at hval
      · exact Option.noConfusion hval
      · rw [hcs] at hval
        simp [hb'] at hval

theorem contains_storeEmails_eq_any (store : List JObj) (x : Option String) :
    (storeEmails store).contains x = store.any (fun d => jget d "email" == x) := by
  apply Bool.coe_iff_coe.mp
  simp only [storeEmails, contains_iff, List.any_eq_true, beq_iff_eq, List.mem_map]

theorem postDedup_success (ok : String → Bool) (st1 : St) (connEvs : List Ev)
    (k : String) (cs : List JObj) (uid cid subject text : String)
    (hne : (newContactsOf (storeOf st1 k) cs uid cid).isEmpty = false)
    (herr : (insertManyU (storeOf st1 k)
      (newContactsOf (storeOf st1 k) cs uid cid)).err = none) :
    postDedup ok st1 connEvs k cs uid cid subject text =
      (setStore st1 k (insertManyU (storeOf st1 k)
          (newContactsOf (storeOf st1 k) cs uid cid)).store,
       connEvs ++ [Ev.find (incomingEmailsOf cs),
         Ev.insert (insertManyU (storeOf st1 k)
           (newContactsOf (storeOf st1 k) cs uid cid)).inserted] ++
       ((insertManyU (storeOf st1 k)
           (newContactsOf (storeOf st1 k) cs uid cid)).inserted.map projNEC).map
         (sendEvC ok subject text) ++
       [Ev.respond 200 (Body.okObj ("Successfully processed for campaign: " ++ k)
         (some k)
         (some ((insertManyU (storeOf st1 k)
           (newContactsOf (storeOf st1 k) cs uid cid)).inserted.map projNEC).length))]) := by
  unfold postDedup
  simp [hne, herr]

/-! ### Claim C5: duplicate failures do not abort the rest of the batch -/

/-- C5: the unordered batch insert tolerates per-record failures: a document
whose email is fresh with respect to the store and not duplicated earlier in
the batch is inserted even when other documents of the batch fail with
duplicate-key errors, and the store after the call is the old store extended
by exactly the inserted documents, so partial success is kept and nothing is
rolled back. -/
theorem c5_unordered_partial (store pre post : List JObj) (d : JObj)
    (hall : ∀ x ∈ pre ++ d :: post, (jget x "email").isSome = true)
    (hfresh : ¬ (storeEmails store).contains (jget d "email") = true)
    (hfirst : ∀ x ∈ pre, jget x "email" ≠ jget d "email") :
    d ∈ (insertManyU store (pre ++ d :: post)).inserted ∧
    (insertManyU store (pre ++ d :: post)).store =
      store ++ (insertManyU store (pre ++ d :: post)).inserted := by
  have hv : (pre ++ d :: post).filter (fun x => (jget x "email").isSome) =
      pre ++ d :: post :=
    List.filter_eq_self.mpr hall
  unfold insertManyU
  rw [hv]
  exact ⟨insertLoop_first_fresh pre store d post hfresh hfirst,
    insertLoop_store_eq _ _⟩

/-- Witness for C5: the first batch document duplicates a stored email and
fails, the second is fresh and is inserted anyway. -/
theorem c5_unordered_partial_witness :
    contactA ∈ (insertManyU [docB] [docB, contactA]).inserted ∧
    (insertManyU [docB] [docB, contactA]).store =
      [docB] ++ (insertManyU [docB] [docB, contactA]).inserted :=
  c5_unordered_partial [docB] [docB] [] contactA (by decide) (by decide) (by decide)

/-- Sanity check of the unordered-insert semantics: a request whose only
contact lacks the required email is not an error — mongoose skips the
invalid document, the insert resolves with nothing written, and the handler
responds 200 with an inserted count of zero and no notification. -/
theorem handleC_skips_invalid_doc :
    (handleC "mongodb://h" okAll st0 reqBad).2 =
      [Ev.connCreate "campaign1" (connUri "mongodb://h" "campaign1_db"),
       Ev.find (incomingEmailsOf [contactNoEmail]),
       Ev.insert [],
       Ev.respond 200 (Body.okObj "Successfully processed for campaign: campaign1"
         (some "campaign1") (some 0))] := rfl

/-! ### Claim C7: the top-level catch block -/

theorem postDedup_eq_afterInsert (ok : String → Bool) (st1 : St)
    (connEvs : List Ev) (k : String) (cs : List JObj)
    (uid cid subject text : String)
    (hne : (newContactsOf (storeOf st1 k) cs uid cid).isEmpty = false) :
    postDedup ok st1 connEvs k cs uid cid subject text =
      afterInsert ok st1 connEvs k (incomingEmailsOf cs)
        (insertManyU (storeOf st1 k) (newContactsOf (storeOf st1 k) cs uid cid))
        subject text := by
  unfold postDedup afterInsert
  simp only [hne, Bool.false_eq_true, if_false]

/-- C7: every insert outcome of the pipeline flows into the embedded
top-level catch (first conjunct); a duplicate-key error (code 11000) from
the unordered insert makes the full handler respond 201 with an empty
array, keeping whatever was written and dispatching nothing (second
conjunct, proved end-to-end); and an insert result carrying any other
error — in the running system a driver or network failure, which the pure
embedding of the insert never produces on its own — is mapped by the catch
to a 500 response with the generic body, again keeping whatever was written
and dispatching nothing (third conjunct). -/
theorem c7_catch_branches :
    (∀ (ok : String → Bool) (st1 : St) (connEvs : List Ev) (k : String)
        (cs : List JObj) (uid cid subject text : String),
      (newContactsOf (storeOf st1 k) cs uid cid).isEmpty = false →
      postDedup ok st1 connEvs k cs uid cid subject text =
        afterInsert ok st1 connEvs k (incomingEmailsOf cs)
          (insertManyU (storeOf st1 k) (newContactsOf (storeOf st1 k) cs uid cid))
          subject text) ∧
    (∀ (base : String) (ok : String → Bool) (st : St) (r : Req) (k db : String)
        (cs : List JObj), r.campaign = some k → r.contacts = some cs →
      campaignLookup k = some db → specFirstError r = none →
      (insertManyU (storeOf st k) (newContactsOf (storeOf st k) cs
        (r.user_id.getD "") (r.conversation_id.getD ""))).err = some ErrKind.dup →
      ∃ st1 connEvs, getContactModelSt base st k = Except.ok (st1, connEvs) ∧
        st1.stores = st.stores ∧
        handleC base ok st r =
          (setStore st1 k (insertManyU (storeOf st k) (newContactsOf (storeOf st k) cs
            (r.user_id.getD "") (r.conversation_id.getD ""))).store,
           connEvs ++ [Ev.find (incomingEmailsOf cs),
             Ev.insert (insertManyU (storeOf st k) (newContactsOf (storeOf st k) cs
               (r.user_id.getD "") (r.conversation_id.getD ""))).inserted,
             Ev.respond 201 Body.emptyArr])) ∧
    (∀ (ok : String → Bool) (st1 : St) (connEvs : List Ev) (k : String)
        (incoming : List (Option String)) (ir : InsertRes) (subject text : String),
      ir.err = some ErrKind.other →
      afterInsert ok st1 connEvs k incoming ir subject text =
        (setStore st1 k ir.store,
         connEvs ++ [Ev.find incoming, Ev.insert ir.inserted,
           Ev.respond 500 (Body.errObj "Internal server error")])) := by
  refine ⟨postDedup_eq_afterInsert, ?_, ?_⟩
  · intro base ok st r k db cs hk hcs hdb hval herr
    obtain ⟨st1, connEvs, hok, hst, _, hrw⟩ :=
      handleC_valid base ok st r k db cs hk hcs hdb hval
    have hstore : storeOf st1 k = storeOf st k := storeOf_congr st1 st k hst
    have hne : (newContactsOf (storeOf st k) cs (r.user_id.getD "")
        (r.conversation_id.getD "")).isEmpty = false := by
      cases hn : newContactsOf (storeOf st k) cs (r.user_id.getD "")
          (r.conversation_id.getD "") with
      | nil => rw [hn] at herr; simp [insertManyU, insertLoop] at herr
      | cons a l => rfl
    refine ⟨st1, connEvs, hok, hst, ?_⟩
    rw [hrw]
    unfold postDedup
    rw [hstore]
    simp [hne, herr]
  · intro ok st1 connEvs k incoming ir subject text herr
    unfold afterInsert
    simp [herr]

/-- Witness for C7: the linking conjunct and the duplicate branch at a
request whose batch repeats one email (201 with empty array, end to end on
the handler), and the catch-all branch at an insert result rejected by the
driver without code 11000 (500 with the generic body). -/
theorem c7_catch_branches_witness :
    (postDedup okAll st0 [] "campaign1" [contactA, contactA] "u1" "c1" "s" "t" =
      afterInsert okAll st0 [] "campaign1" (incomingEmailsOf [contactA, contactA])
        (insertManyU (storeOf st0 "campaign1")
          (newContactsOf (storeOf st0 "campaign1") [contactA, contactA] "u1" "c1"))
        "s" "t") ∧
    (∃ st1 connEvs, getContactModelSt "mongodb://h" st0 "campaign1" =
        Except.ok (st1, connEvs) ∧ st1.stores = st0.stores ∧
      handleC "mongodb://h" okAll st0 reqDup =
        (setStore st1 "campaign1" (insertManyU (storeOf st0 "campaign1")
          (newContactsOf (storeOf st0 "campaign1") [contactA, contactA] "u1" "c1")).store,
         connEvs ++ [Ev.find (incomingEmailsOf [contactA, contactA]),
           Ev.insert (insertManyU (storeOf st0 "campaign1")
             (newContactsOf (storeOf st0 "campaign1") [contactA, contactA] "u1" "c1")).inserted,
           Ev.respond 201 Body.emptyArr])) ∧
    (afterInsert okAll st0 [] "campaign1" (incomingEmailsOf [contactA]) drvFail "s" "t" =
      (setStore st0 "campaign1" [docA],
       [Ev.find (incomingEmailsOf [contactA]), Ev.insert [],
        Ev.respond 500 (Body.errObj "Internal server error")])) := by
  refine ⟨c7_catch_branches.1 okAll st0 [] "campaign1" [contactA, contactA]
    "u1" "c1" "s" "t" (by decide), ?_,
    c7_catch_branches.2.2 okAll st0 [] "campaign1" (incomingEmailsOf [contactA])
      drvFail "s" "t" rfl⟩
  exact c7_catch_branches.2.1 "mongodb://h" okAll st0 reqDup "campaign1"
    "campaign1_db" [contactA, contactA] rfl rfl rfl rfl (by decide)

/-! ### Claim C1: candidate extraction and the newContacts computation -/

theorem postDedup_find_mem (ok : String → Bool) (st1 : St) (connEvs : List Ev)
    (k : String) (cs : List JObj) (uid cid subject text : String) :
    Ev.find (incomingEmailsOf cs) ∈ (postDedup ok st1 connEvs k cs uid cid subject text).2 := by
  unfold postDedup
  by_cases h : (newContactsOf (storeOf st1 k) cs uid cid).isEmpty = true
  · simp [h]
  · simp only [h, Bool.false_eq_true, if_false]
    cases herr : (insertManyU (storeOf st1 k) (newContactsOf (storeOf st1 k) cs uid cid)).err with
    | none => simp [herr]
    | some e => cases e <;> simp [herr]

/-- C1: the candidate emails are the input contact emails in input order and
newContacts consists of exactly the input contacts, in input order, whose
email is not among the emails of the records the store query returns — which
coincide with the input contacts whose email no stored document carries —
each augmented with the two header identifiers; for every valid request the
handler issues the store query with exactly that candidate list. -/
theorem c1_dedup_extraction :
    (∀ (store cs : List JObj) (uid cid : String),
      newContactsOf store cs uid cid =
        (cs.filter (fun c => !store.any (fun d => jget d "email" == jget c "email"))).map
          (fun c => spreadAug c uid cid)) ∧
    (∀ (base : String) (ok : String → Bool) (st : St) (r : Req) (k db : String)
        (cs : List JObj), r.campaign = some k → r.contacts = some cs →
        campaignLookup k = some db → specFirstError r = none →
        Ev.find (incomingEmailsOf cs) ∈ (handleC base ok st r).2) := by
  refine ⟨newContactsOf_eq, ?_⟩
  intro base ok st r k db cs hk hcs hdb hval
  obtain ⟨st1, connEvs, _, _, _, hrw⟩ := handleC_valid base ok st r k db cs hk hcs hdb hval
  rw [hrw]
  exact postDedup_find_mem ok st1 connEvs k cs _ _ _ _

/-- Witness for C1 at a concrete store and request. -/
theorem c1_dedup_extraction_witness :
    (newContactsOf [] [contactA] "u1" "c1" =
      (([contactA].filter
          (fun c => !List.any [] (fun d => jget d "email" == jget c "email"))).map
        (fun c => spreadAug c "u1" "c1"))) ∧
    Ev.find (incomingEmailsOf [contactA]) ∈ (handleC "mongodb://h" okAll st0 reqOne).2 :=
  ⟨c1_dedup_extraction.1 [] [contactA] "u1" "c1",
   c1_dedup_extraction.2 "mongodb://h" okAll st0 reqOne "campaign1" "campaign1_db"
     [contactA] rfl rfl rfl rfl⟩

/-! ### Claim C6: the all-existing short circuit -/

/-- C6: when every input contact email already exists in the campaign store,
the handler answers 200 with the already-exist message and the campaign, the
body omits the inserted count, the trace contains no insert event and no
send event, and the stores are untouched. -/
theorem c6_all_existing (base : String) (ok : String → Bool) (st : St) (r : Req)
    (k db : String) (cs : List JObj)
    (hk : r.campaign = some k) (hcs : r.contacts = some cs)
    (hdb : campaignLookup k = some db) (hval : specFirstError r = none)
    (hex : ∀ c ∈ cs,
      (storeOf st k).any (fun d => jget d "email" == jget c "email") = true) :
    ∃ st1 connEvs, getContactModelSt base st k = Except.ok (st1, connEvs) ∧
      st1.stores = st.stores ∧
      (connEvs = [] ∨ connEvs = [Ev.connCreate k (connUri base db)]) ∧
      handleC base ok st r =
        (st1, connEvs ++ [Ev.find (incomingEmailsOf cs),
          Ev.respond 200 (Body.okObj "These emails already exist in this campaign."
            (some k) none)]) := by
  obtain ⟨st1, connEvs, hok, hst, hevs, hrw⟩ :=
    handleC_valid base ok st r k db cs hk hcs hdb hval
  refine ⟨st1, connEvs, hok, hst, hevs, ?_⟩
  rw [hrw]
  have hnil : newContactsOf (storeOf st1 k) cs (r.user_id.getD "")
      (r.conversation_id.getD "") = [] := by
    rw [storeOf_congr st1 st k hst]
    exact newContactsOf_nil_of_all_exist _ _ _ _ hex
  unfold postDedup
  simp [hnil]

/-- Witness for C6: a request whose single contact email is already stored. -/
theorem c6_all_existing_witness :
    ∃ st1 connEvs, getContactModelSt "mongodb://h" stWithA "campaign1" =
        Except.ok (st1, connEvs) ∧
      st1.stores = stWithA.stores ∧
      (connEvs = [] ∨
        connEvs = [Ev.connCreate "campaign1" (connUri "mongodb://h" "campaign1_db")]) ∧
      handleC "mongodb://h" okAll stWithA reqOne =
        (st1, connEvs ++ [Ev.find (incomingEmailsOf [contactA]),
          Ev.respond 200 (Body.okObj "These emails already exist in this campaign."
            (some "campaign1") none)]) :=
  c6_all_existing "mongodb://h" okAll stWithA reqOne "campaign1" "campaign1_db"
    [contactA] rfl rfl rfl rfl (by decide)

/-! ### Claim C4: the all-new request -/

/-- C4 as literally stated is false: a valid request whose contacts repeat
one fresh email makes the unordered insert write the first copy and throw a
duplicate-key error on the second, so the handler answers 201 with an empty
array (no inserted count anywhere in the trace) and dispatches no
notification although one record was inserted. -/
theorem c4_counterexample : ¬ c4Claim := by
  intro h
  rcases (h "mongodb://h" okAll st0 reqDup "campaign1" [contactA, contactA]
    rfl rfl rfl (by decide)).1 with ⟨m, hm⟩
  have htr : (handleC "mongodb://h" okAll st0 reqDup).2 =
      [Ev.connCreate "campaign1" (connUri "mongodb://h" "campaign1_db"),
       Ev.find (incomingEmailsOf [contactA, contactA]),
       Ev.insert [spreadAug contactA "u1" "c1"],
       Ev.respond 201 Body.emptyArr] := rfl
  rw [htr] at hm
  simp at hm

/-- C4 amended: restricted to valid requests whose contact emails are all
present and pairwise distinct (so the deduplicated input is the input
itself) and none of whose emails is already stored, the handler inserts
every input contact, the response reports inserted = the number of input
contacts, and exactly one notification is dispatched per inserted contact. -/
theorem c4_all_new (base : String) (ok : String → Bool) (st : St) (r : Req)
    (k db : String) (cs : List JObj)
    (hk : r.campaign = some k) (hcs : r.contacts = some cs)
    (hdb : campaignLookup k = some db) (hval : specFirstError r = none)
    (hmail : ∀ c ∈ cs, (jget c "email").isSome = true)
    (hnodup : (cs.map (fun c => jget c "email")).Nodup)
    (hfresh : ∀ c ∈ cs,
      ¬ (storeOf st k).any (fun d => jget d "email" == jget c "email") = true) :
    (∃ m, Ev.respond 200 (Body.okObj m (some k) (some cs.length)) ∈
      (handleC base ok st r).2) ∧
    sendCount (handleC base ok st r).2 = cs.length ∧
    Ev.insert (cs.map (fun c => spreadAug c (r.user_id.getD "")
      (r.conversation_id.getD ""))) ∈ (handleC base ok st r).2 := by
  obtain ⟨st1, connEvs, hok, hst, hevs, hrw⟩ :=
    handleC_valid base ok st r k db cs hk hcs hdb hval
  have hstore : storeOf st1 k = storeOf st k := storeOf_congr st1 st k hst
  set uid := r.user_id.getD "" with huid
  set cid := r.conversation_id.getD "" with hcid
  have hnew : newContactsOf (storeOf st1 k) cs uid cid =
      cs.map (fun c => spreadAug c uid cid) := by
    rw [hstore]
    exact newContactsOf_all_of_none_exist _ _ _ _ hfresh
  have hfresh2 : ∀ x ∈ cs.map (fun c => spreadAug c uid cid),
      ¬ (storeEmails (storeOf st1 k)).contains (jget x "email") = true := by
    intro x hx
    rcases List.mem_map.mp hx with ⟨c, hc, rfl⟩
    rw [jget_spreadAug_email, contains_storeEmails_eq_any, hstore]
    exact hfresh c hc
  have hnodup2 : ((cs.map (fun c => spreadAug c uid cid)).map
      (fun x => jget x "email")).Nodup := by
    rw [List.map_map]
    have heq : cs.map ((fun x => jget x "email") ∘ (fun c => spreadAug c uid cid)) =
        cs.map (fun c => jget c "email") :=
      List.map_eq_map_iff.mpr (fun c _ => jget_spreadAug_email c uid cid)
    rw [heq]
    exact hnodup
  have hvalm : (cs.map (fun c => spreadAug c uid cid)).filter
      (fun d => (jget d "email").isSome) = cs.map (fun c => spreadAug c uid cid) := by
    apply List.filter_eq_self.mpr
    intro x hx
    rcases List.mem_map.mp hx with ⟨c, hc, rfl⟩
    rw [jget_spreadAug_email]
    exact hmail c hc
  have hins : insertManyU (storeOf st1 k) (cs.map (fun c => spreadAug c uid cid)) =
      { store := storeOf st1 k ++ cs.map (fun c => spreadAug c uid cid),
        inserted := cs.map (fun c => spreadAug c uid cid), err := none } := by
    have hloop := insertLoop_all_fresh (cs.map (fun c => spreadAug c uid cid))
      (storeOf st1 k) hfresh2 hnodup2
    simp [insertManyU, hvalm, hloop]
  have hcsne : cs.isEmpty = false := spec_none_contacts r cs hcs hval
  have hne : (newContactsOf (storeOf st1 k) cs uid cid).isEmpty = false := by
    rw [hnew]
    cases cs with
    | nil => simp at hcsne
    | cons a l => rfl
  have herr : (insertManyU (storeOf st1 k)
      (newContactsOf (storeOf st1 k) cs uid cid)).err = none := by
    rw [hnew, hins]
  have htrace : (handleC base ok st r).2 =
      connEvs ++ [Ev.find (incomingEmailsOf cs),
        Ev.insert (cs.map (fun c => spreadAug c uid cid))] ++
      ((cs.map (fun c => spreadAug c uid cid)).map projNEC).map
        (sendEvC ok r.subject r.text) ++
      [Ev.respond 200 (Body.okObj ("Successfully processed for campaign: " ++ k)
        (some k) (some cs.length))] := by
    rw [hrw, postDedup_success ok st1 connEvs k cs uid cid r.subject r.text hne herr]
    rw [hnew, hins]
    simp [List.length_map]
  have hconn0 : sendCount connEvs = 0 := by
    rcases hevs with hv | hv <;> rw [hv] <;> rfl
  refine ⟨⟨"Successfully processed for campaign: " ++ k, ?_⟩, ?_, ?_⟩
  · rw [htrace]
    simp
  · rw [htrace]
    rw [sendCount_append, sendCount_append, sendCount_append, hconn0,
      sendCount_sendEvC]
    simp [sendCount, isSend, List.filter, List.length_map]
  · rw [htrace]
    simp

/-- Witness for C4 amended: two distinct fresh contacts, both inserted, both
notified, inserted count 2. -/
theorem c4_all_new_witness :
    (∃ m, Ev.respond 200 (Body.okObj m (some "campaign1") (some 2)) ∈
      (handleC "mongodb://h" okAll st0 reqTwo).2) ∧
    sendCount (handleC "mongodb://h" okAll st0 reqTwo).2 = 2 ∧
    Ev.insert [spreadAug contactA "u1" "c1", spreadAug contactB "u1" "c1"] ∈
      (handleC "mongodb://h" okAll st0 reqTwo).2 :=
  c4_all_new "mongodb://h" okAll st0 reqTwo "campaign1" "campaign1_db"
    [contactA, contactB] rfl rfl rfl rfl (by decide) (by decide) (by decide)

/-! ### Claim C8: notification dispatch -/

theorem postDedup_ok_independent (ok1 ok2 : String → Bool) (st1 : St)
    (connEvs : List Ev) (k : String) (cs : List JObj)
    (uid cid subject text : String) :
    (postDedup ok1 st1 connEvs k cs uid cid subject text).1 =
      (postDedup ok2 st1 connEvs k cs uid cid subject text).1 ∧
    (postDedup ok1 st1 connEvs k cs uid cid subject text).2.map eraseSendOutcome =
      (postDedup ok2 st1 connEvs k cs uid cid subject text).2.map eraseSendOutcome := by
  unfold postDedup
  by_cases h : (newContactsOf (storeOf st1 k) cs uid cid).isEmpty = true
  · simp [h]
  · simp only [h, Bool.false_eq_true, if_false]
    cases herr : (insertManyU (storeOf st1 k)
        (newContactsOf (storeOf st1 k) cs uid cid)).err with
    | none =>
      refine ⟨rfl, ?_⟩
      simp [herr, List.map_map, Function.comp, eraseSendOutcome, sendEvC]
    | some e => cases e <;> simp [herr]

theorem handleC_ok_independent (base : String) (ok1 ok2 : String → Bool)
    (st : St) (r : Req) :
    (handleC base ok1 st r).1 = (handleC base ok2 st r).1 ∧
    (handleC base ok1 st r).2.map eraseSendOutcome =
      (handleC base ok2 st r).2.map eraseSendOutcome := by
  cases h1 : truthy r.campaign with
  | false => simp [handleC, h1]
  | true =>
    cases h2 : (!truthy r.user_id || !truthy r.conversation_id) with
    | true => simp [handleC, h1, h2]
    | false =>
      cases h3 : truthy (campaignLookup (r.campaign.getD "")) with
      | false => simp [handleC, h1, h2, h3]
      | true =>
        cases hcon : r.contacts with
        | none => simp [handleC, h1, h2, h3, hcon]
        | some cs =>
          cases hemp : cs.isEmpty with
          | true => simp [handleC, h1, h2, h3, hcon, hemp]
          | false =>
            cases hok : getContactModelSt base st (r.campaign.getD "") with
            | error e => simp [handleC, h1, h2, h3, hcon, hemp, hok]
            | ok p =>
              obtain ⟨st1, connEvs⟩ := p
              simp only [handleC, h1, h2, h3, hcon, hemp, hok, Bool.not_true,
                Bool.not_false, Bool.false_eq_true, if_false, Bool.or_self]
              simpa using postDedup_ok_independent ok1 ok2 st1 connEvs
                (r.campaign.getD "") cs (r.user_id.getD "")
                (r.conversation_id.getD "") r.subject r.text

/-- C8: notification dispatch sends exactly one email per inserted record,
addressed to the record email lowercased, with the request subject, the
plain text, and an HTML body equal to the plain text verbatim; all send
events precede the response, and the provider outcome of any send changes
neither the resulting state nor any part of the trace beyond the logged
outcome flag — in particular the HTTP response is unconditional on dispatch
outcomes. -/
theorem c8_dispatch :
    (∀ (base : String) (ok1 ok2 : String → Bool) (st : St) (r : Req),
      (handleC base ok1 st r).1 = (handleC base ok2 st r).1 ∧
      (handleC base ok1 st r).2.map eraseSendOutcome =
        (handleC base ok2 st r).2.map eraseSendOutcome) ∧
    (∀ (ok : String → Bool) (subject text : String) (d : JObj),
      sendEvC ok subject text (projNEC d) =
        Ev.send
          { recipient := ((jget d "email").getD "").toLower,
            sender := "Osteopathic Health Centre <wellness@osteopathydubai.com>",
            subject := subject, text := text, html := text }
          (ok (((jget d "email").getD "").toLower))) ∧
    (∀ (base : String) (ok : String → Bool) (st : St) (r : Req) (k db : String)
        (cs : List JObj), r.campaign = some k → r.contacts = some cs →
        campaignLookup k = some db → specFirstError r = none →
        (newContactsOf (storeOf st k) cs (r.user_id.getD "")
          (r.conversation_id.getD "")).isEmpty = false →
        (insertManyU (storeOf st k) (newContactsOf (storeOf st k) cs
          (r.user_id.getD "") (r.conversation_id.getD ""))).err = none →
        ∃ st1 connEvs, getContactModelSt base st k = Except.ok (st1, connEvs) ∧
          (handleC base ok st r).2 =
            connEvs ++ [Ev.find (incomingEmailsOf cs),
              Ev.insert (insertManyU (storeOf st k) (newContactsOf (storeOf st k) cs
                (r.user_id.getD "") (r.conversation_id.getD ""))).inserted] ++
            ((insertManyU (storeOf st k) (newContactsOf (storeOf st k) cs
                (r.user_id.getD "") (r.conversation_id.getD ""))).inserted.map
              projNEC).map (sendEvC ok r.subject r.text) ++
            [Ev.respond 200 (Body.okObj
              ("Successfully processed for campaign: " ++ k) (some k)
              (some ((insertManyU (storeOf st k) (newContactsOf (storeOf st k) cs
                (r.user_id.getD "") (r.conversation_id.getD ""))).inserted.map
                  projNEC).length))]) := by
  refine ⟨handleC_ok_independent, ?_, ?_⟩
  · intro ok subject text d
    simp [sendEvC, lowerEmail_projNEC]
  · intro base ok st r k db cs hk hcs hdb hval hne herr
    obtain ⟨st1, connEvs, hok, hst, _, hrw⟩ :=
      handleC_valid base ok st r k db cs hk hcs hdb hval
    have hstore : storeOf st1 k = storeOf st k := storeOf_congr st1 st k hst
    rw [← hstore] at hne herr
    refine ⟨st1, connEvs, hok, ?_⟩
    rw [hrw, postDedup_success ok st1 connEvs k cs (r.user_id.getD "")
      (r.conversation_id.getD "") r.subject r.text hne herr]
    rw [hstore]

/-- Witness for C8 at a concrete request: two outcome functions, then the
explicit message shape, then the success trace of a one-contact request. -/
theorem c8_dispatch_witness :
    ((handleC "mongodb://h" okAll st0 reqOne).1 =
      (handleC "mongodb://h" okNone st0 reqOne).1 ∧
     (handleC "mongodb://h" okAll st0 reqOne).2.map eraseSendOutcome =
      (handleC "mongodb://h" okNone st0 reqOne).2.map eraseSendOutcome) ∧
    (sendEvC okAll "s" "t" (projNEC docA) =
      Ev.send
        { recipient := ((jget docA "email").getD "").toLower,
          sender := "Osteopathic Health Centre <wellness@osteopathydubai.com>",
          subject := "s", text := "t", html := "t" }
        (okAll (((jget docA "email").getD "").toLower))) ∧
    (∃ st1 connEvs, getContactModelSt "mongodb://h" st0 "campaign1" =
        Except.ok (st1, connEvs) ∧
      (handleC "mongodb://h" okAll st0 reqOne).2 =
        connEvs ++ [Ev.find (incomingEmailsOf [contactA]),
          Ev.insert (insertManyU (storeOf st0 "campaign1")
            (newContactsOf (storeOf st0 "campaign1") [contactA] "u1" "c1")).inserted] ++
        ((insertManyU (storeOf st0 "campaign1")
            (newContactsOf (storeOf st0 "campaign1") [contactA] "u1" "c1")).inserted.map
          projNEC).map (sendEvC okAll "s" "t") ++
        [Ev.respond 200 (Body.okObj "Successfully processed for campaign: campaign1"
          (some "campaign1")
          (some ((insertManyU (storeOf st0 "campaign1")
            (newContactsOf (storeOf st0 "campaign1") [contactA] "u1" "c1")).inserted.map
              projNEC).length))]) :=
  ⟨c8_dispatch.1 "mongodb://h" okAll okNone st0 reqOne,
   c8_dispatch.2.1 okAll "s" "t" docA,
   c8_dispatch.2.2 "mongodb://h" okAll st0 reqOne "campaign1" "campaign1_db"
     [contactA] rfl rfl rfl rfl (by decide) (by decide)⟩

/-! ### Claim C3: the success response -/

/-- C3 (code bug in server2.js): at a concrete valid request with one new
contact, the single-database handler of server2.js inserts the record and
attempts the notification but never produces an HTTP response — its trace
ends after the send with no respond event — whereas the multi-campaign
handler of campaign.js responds 200 with a message, the inserted count and
the campaign identifier, and only after the send events. -/
theorem c3_success_response :
    (handleS okAll [] reqOne =
      ([spreadAug contactA "u1" "c1"],
       [Ev.find (incomingEmailsOf [contactA]),
        Ev.insert [spreadAug contactA "u1" "c1"],
        sendEvS okAll "s" "t" (projNEC (spreadAug contactA "u1" "c1"))])) ∧
    (∀ (s : Nat) (b : Body), Ev.respond s b ∉ (handleS okAll [] reqOne).2) ∧
    (handleC "mongodb://h" okAll st0 reqOne).2 =
      [Ev.connCreate "campaign1" (connUri "mongodb://h" "campaign1_db"),
       Ev.find (incomingEmailsOf [contactA]),
       Ev.insert [spreadAug contactA "u1" "c1"],
       sendEvC okAll "s" "t" (projNEC (spreadAug contactA "u1" "c1")),
       Ev.respond 200 (Body.okObj "Successfully processed for campaign: campaign1"
         (some "campaign1") (some 1))] := by
  refine ⟨rfl, ?_, rfl⟩
  intro s b hb
  have h2 : (handleS okAll [] reqOne).2 =
      [Ev.find (incomingEmailsOf [contactA]),
       Ev.insert [spreadAug contactA "u1" "c1"],
       sendEvS okAll "s" "t" (projNEC (spreadAug contactA "u1" "c1"))] := rfl
  rw [h2] at hb
  simp [sendEvS] at hb

end EmailMemory
